import Mathlib

/- Verification development for the video frame extraction service in
   src/app.py. The Python code is shallowly embedded: machine integers
   become Nat, Python floats become exact rationals, filesystem paths
   become lists of components, and computations that can raise become
   Except values. Pixel contents of images are abstracted; shapes and
   channel modes are tracked exactly. -/

namespace TVTF

/-- Job status enum of processing_tasks entries. -/
inductive Status
  | pending
  | processing
  | completed
  | error
deriving DecidableEq, Repr

/-- Output image formats accepted by the app. -/
inductive Format
  | png
  | jpg
  | webp
deriving DecidableEq, Repr

/-- Channel layout of an in-flight image. OpenCV decodes to BGR, cvtColor
    produces RGB, rembg returns RGBA. -/
inductive Mode
  | BGR
  | RGB
  | RGBA
deriving DecidableEq, Repr

/-- An in-flight frame: shape and channel mode, pixel data abstracted. -/
structure Frame where
  width : Nat
  height : Nat
  mode : Mode
deriving DecidableEq, Repr

/-- Processing parameters captured at submission (the params dict built in
    the process endpoint). -/
structure Params where
  target_width : Nat
  interval : Rat
  output_format : Format
  unblur_option : Bool
deriving DecidableEq, Repr

/-- The cv2.VideoCapture collaborator: whether it opens, the reported fps
    (CAP_PROP_FPS), the reported frame count (CAP_PROP_FRAME_COUNT), and
    the frames that successive read() calls actually yield. The reported
    count and the yielded frames are independent pieces of data, as they
    are for real containers, whose metadata can be inexact. -/
structure FrameSource where
  opened : Bool
  fps : Rat
  total_frames : Nat
  frames : List Frame
deriving DecidableEq, Repr

/-- One entry of the processing_tasks dictionary. The advisory message
    field and the params and video_path copies are omitted: no claim
    concerns them. -/
structure Task where
  status : Status
  progress : Nat
  frames_count : Nat
  total_frames : Nat
  output_dir : Option (List String)
  error_message : Option String
deriving DecidableEq, Repr

/-- Python int() applied to a rational: truncation toward zero. -/
def pyInt (q : Rat) : Int := if 0 ≤ q then ⌊q⌋ else -⌊-q⌋

/-- The UPLOAD_FOLDER configuration constant. -/
def UPLOAD_FOLDER : List String := ["uploads"]

/-- The OUTPUT_FOLDER configuration constant. -/
def OUTPUT_FOLDER : List String := ["outputs"]

/-- os.path.join(OUTPUT_FOLDER, video_id), the per-job output directory. -/
def outputDirFor (video_id : String) : List String := OUTPUT_FOLDER ++ [video_id]

/-- The registry entry created by the process endpoint: status pending,
    progress 0, both counters 0, output_dir already set to
    os.path.join(OUTPUT_FOLDER, video_id), error_message None. -/
def initTask (video_id : String) : Task :=
  { status := Status.pending
    progress := 0
    frames_count := 0
    total_frames := 0
    output_dir := some (outputDirFor video_id)
    error_message := none }

/-- frame_skip = max(1, int(fps * interval_sec)). -/
def frameSkip (fps interval_sec : Rat) : Nat :=
  (max 1 (pyInt (fps * interval_sec))).toNat

/-- unsharp_mask blurs and recombines pixel values; it keeps the shape and
    the channel mode of the frame, which is all the embedding tracks. -/
def unsharp_mask (image : Frame) : Frame := image

/-- Proportional resize step of process_video: only when the width exceeds
    target_width, keep ratio = target_width / width, truncate the scaled
    height with int(), and resize to (target_width, target_height). -/
def resizeFrame (target_width : Nat) (frame : Frame) : Frame :=
  if target_width < frame.width then
    let ratio : Rat := (target_width : Rat) / (frame.width : Rat)
    { frame with
        width := target_width
        height := (pyInt ((frame.height : Rat) * ratio)).toNat }
  else frame

/-- cv2.cvtColor(frame, cv2.COLOR_BGR2RGB). -/
def cvtColorBGR2RGB (frame : Frame) : Frame := { frame with mode := Mode.RGB }

/-- rembg remove: background removal, whose result carries an alpha
    channel (rembg converts to RGBA). -/
def remove (image : Frame) : Frame := { image with mode := Mode.RGBA }

/-- Zero padding of the extracted counter, as in the 05d format spec. -/
def pad5 (n : Nat) : String :=
  let s := toString n
  String.mk (List.replicate (5 - s.length) '0') ++ s

/-- File extension string of each output format. -/
def extOf : Format → String
  | Format.png => "png"
  | Format.jpg => "jpg"
  | Format.webp => "webp"

/-- Output filename frame_{extracted:05d}.{output_format}. -/
def frameFilename (extracted : Nat) (fmt : Format) : String :=
  "frame_" ++ pad5 extracted ++ "." ++ extOf fmt

/-- A file written by result_image.save: name, shape, channel mode, and
    the save keyword arguments actually passed (quality for JPEG,
    lossless for WEBP). -/
structure SavedImage where
  filename : String
  width : Nat
  height : Nat
  mode : Mode
  format : Format
  quality : Option Nat
  lossless : Bool
deriving DecidableEq, Repr

/-- Saving step of process_video: PNG saved as is, JPG converted from RGBA
    to RGB first and saved with quality=95, WEBP saved with lossless=True. -/
def encodeSave (fmt : Format) (extracted : Nat) (img : Frame) : SavedImage :=
  match fmt with
  | Format.png =>
      { filename := frameFilename extracted Format.png
        width := img.width, height := img.height
        mode := img.mode, format := Format.png
        quality := none, lossless := false }
  | Format.jpg =>
      let img2 := if img.mode = Mode.RGBA then { img with mode := Mode.RGB } else img
      { filename := frameFilename extracted Format.jpg
        width := img2.width, height := img2.height
        mode := img2.mode, format := Format.jpg
        quality := some 95, lossless := false }
  | Format.webp =>
      { filename := frameFilename extracted Format.webp
        width := img.width, height := img.height
        mode := img.mode, format := Format.webp
        quality := none, lossless := true }

/-- The per-frame pipeline applied to a sampled frame: optional unsharp
    mask, proportional resize, BGR to RGB conversion, background removal,
    then the format encode. -/
def processFrame (params : Params) (extracted : Nat) (frame : Frame) : SavedImage :=
  let f1 := if params.unblur_option then unsharp_mask frame else frame
  let f2 := resizeFrame params.target_width f1
  let f3 := cvtColorBGR2RGB f2
  let f4 := remove f3
  encodeSave params.output_format extracted f4

/-- Message of the ZeroDivisionError raised by frame_count / total_frames
    when total_frames is zero. -/
def zeroDivMsg : String := "division by zero"

/-- Message of the exception raised when the capture does not open. -/
def openFailMsg : String := "Impossible d ouvrir le fichier video."

/-- Prefix that the except block of process_video puts in front of the
    exception text when recording error_message. -/
def procErrPrefix : String := "Erreur de traitement: "

/-- Progress computation int((frame_count / total_frames) * 100). Python
    true division raises ZeroDivisionError when total_frames is zero. -/
def progressOf (frame_count total_frames : Nat) : Except String Nat :=
  if total_frames = 0 then Except.error zeroDivMsg
  else Except.ok ((pyInt (((frame_count : Rat) / (total_frames : Rat)) * 100)).toNat)

/-- Observable outcome of the frame loop: task snapshots after each loop
    iteration, the files written, the raw indices passed to the pipeline,
    the final extracted counter, and either the task after normal
    exhaustion or the exception message with the task state at the raise. -/
structure LoopOut where
  trace : List Task
  saved : List SavedImage
  sampled : List Nat
  extracted : Nat
  result : Except (String × Task) Task

/-- The while loop of process_video. The index i plays frame_count and ex
    plays extracted_count. Each iteration first recomputes progress and
    frames_count on the task (one snapshot), then runs the pipeline when
    i mod frame_skip is zero. -/
def runLoop (params : Params) (frame_skip total_frames : Nat) :
    List Frame → Nat → Nat → Task → LoopOut
  | [], _, ex, t => ⟨[], [], [], ex, Except.ok t⟩
  | frame :: rest, i, ex, t =>
    match progressOf i total_frames with
    | Except.error msg => ⟨[], [], [], ex, Except.error (msg, t)⟩
    | Except.ok p =>
      let t1 := { t with progress := p, frames_count := ex }
      if i % frame_skip = 0 then
        let out := runLoop params frame_skip total_frames rest (i + 1) (ex + 1) t1
        ⟨t1 :: out.trace, processFrame params ex frame :: out.saved, i :: out.sampled,
          out.extracted, out.result⟩
      else
        let out := runLoop params frame_skip total_frames rest (i + 1) ex t1
        ⟨t1 :: out.trace, out.saved, out.sampled, out.extracted, out.result⟩

/-- Observable outcome of one whole process_video run. -/
structure RunResult where
  trace : List Task
  final : Task
  saved : List SavedImage
  sampled : List Nat
  released : Bool
  fileDeleted : Bool

/-- The finally block of process_video: progress is forced to 100 when
    still below 100. Returns the extra snapshot, when the task changed,
    together with the resulting task. -/
def applyFinally (t : Task) : List Task × Task :=
  if t.progress < 100 then
    let t2 := { t with progress := 100 }
    ([t2], t2)
  else ([], t)

/-- process_video, started on the registry entry t0. The trace lists the
    task snapshots after each mutation of modelled fields, in program
    order. The released flag records whether cap.release() ran, which the
    code places on the normal path inside try, after the loop; fileDeleted
    records the unconditional os.remove of the upload in finally. The
    failure to open and the ZeroDivisionError both land in the except
    block, which sets status and error_message. -/
def process_video (video_id : String) (src : FrameSource) (params : Params) (t0 : Task) :
    RunResult :=
  let t1 := { t0 with status := Status.processing }
  if src.opened then
    let frame_skip := frameSkip src.fps params.interval
    let t2 := { t1 with total_frames := src.total_frames }
    let t3 := { t2 with output_dir := some (outputDirFor video_id) }
    let lo := runLoop params frame_skip src.total_frames src.frames 0 0 t3
    match lo.result with
    | Except.ok t4 =>
      let t5 := { t4 with
                    progress := 100, frames_count := lo.extracted
                    status := Status.completed }
      let fin := applyFinally t5
      ⟨[t1, t2, t3] ++ lo.trace ++ t5 :: fin.1, fin.2, lo.saved, lo.sampled, true, true⟩
    | Except.error (msg, te) =>
      let terr := { te with
                      status := Status.error
                      error_message := some (procErrPrefix ++ msg) }
      let fin := applyFinally terr
      ⟨[t1, t2, t3] ++ lo.trace ++ terr :: fin.1, fin.2, lo.saved, lo.sampled, false, true⟩
  else
    let terr := { t1 with
                    status := Status.error
                    error_message := some (procErrPrefix ++ openFailMsg) }
    let fin := applyFinally terr
    ⟨[t1, terr] ++ fin.1, fin.2, [], [], false, true⟩

/-- Relative path of p with respect to base, for a path directly below
    base (os.path.relpath as used by download_zip on walked files). -/
def relpath (p base : List String) : List String := p.drop base.length

/-- Zip compression method. The handler passes zipfile.ZIP_DEFLATED. -/
inductive Compression
  | stored
  | deflated
deriving DecidableEq, Repr

/-- In-memory zip archive: entries carrying archive-internal path
    components with the file content, and the compression method. -/
structure ZipArchive where
  entries : List (List String × SavedImage)
  compression : Compression
deriving DecidableEq, Repr

/-- Response of the download endpoint. -/
inductive DlResp
  | notFound
  | ok (z : ZipArchive)
deriving DecidableEq, Repr

/-- download_zip. reg models processing_tasks.get and fsFiles maps a
    directory to the files it holds; the output directory written by
    process_video is flat, holding plain files only, so os.walk yields a
    single root and relpath is taken from the walked file back to
    output_dir. The filesystem map is returned unchanged: the handler only
    reads the files into the in-memory archive. -/
def download_zip (reg : String → Option Task) (fsFiles : List String → List SavedImage)
    (video_id : String) : DlResp × (List String → List SavedImage) :=
  match reg video_id with
  | none => (DlResp.notFound, fsFiles)
  | some task =>
    if task.status = Status.completed then
      let dir := task.output_dir.getD []
      let files := fsFiles dir
      (DlResp.ok
        ⟨files.map (fun f => (relpath (dir ++ [f.filename]) dir, f)), Compression.deflated⟩,
       fsFiles)
    else (DlResp.notFound, fsFiles)

/-- Response of the frame serving endpoint. -/
inductive ServeResp
  | notFound
  | file (path : List String)
deriving DecidableEq, Repr

/-- serve_frame: for a known task whose status is processing or completed,
    send the file at os.path.join(output_dir, filename); the filename is
    joined as given, with no containment check. -/
def serve_frame (reg : String → Option Task) (video_id filename : String) : ServeResp :=
  match reg video_id with
  | none => ServeResp.notFound
  | some task =>
    if task.status = Status.processing ∨ task.status = Status.completed then
      ServeResp.file (task.output_dir.getD [] ++ [filename])
    else ServeResp.notFound

/-- Resolution of dot-dot components of a path, used to express whether a
    joined path stays inside a base directory. -/
def resolveComps (acc : List String) : List String → List String
  | [] => acc
  | c :: rest =>
    if c = ".." then resolveComps acc.dropLast rest
    else resolveComps (acc ++ [c]) rest

/-- A path stays within base when its resolution still starts with base. -/
def withinDir (base p : List String) : Prop :=
  (resolveComps [] p).take base.length = base

instance (base p : List String) : Decidable (withinDir base p) := by
  unfold withinDir; infer_instance

/-- Allowed single steps of the job state machine read off the code:
    stay, pending to processing, processing to completed or to error. -/
def statusStep (a b : Status) : Prop :=
  a = b ∨ (a = Status.pending ∧ b = Status.processing) ∨
    (a = Status.processing ∧ (b = Status.completed ∨ b = Status.error))

instance (a b : Status) : Decidable (statusStep a b) := by
  unfold statusStep; infer_instance

/-- Allowed single steps of a task snapshot: the status takes an allowed
    step and error_message either is unchanged or is set, from none, on
    the step into the error status. -/
def taskStep (a b : Task) : Prop :=
  statusStep a.status b.status ∧
    (a.error_message = b.error_message ∨
      (a.error_message = none ∧ b.status = Status.error))

instance (a b : Task) : Decidable (taskStep a b) := by
  unfold taskStep; infer_instance

/-- Task of a loop result, on both the normal and the raising outcome. -/
def resTask : Except (String × Task) Task → Task
  | Except.ok t => t
  | Except.error (_, t) => t

/-- A concrete frame used by concrete instantiations below. -/
def frA : Frame := ⟨100, 80, Mode.BGR⟩

/-- Concrete parameters: defaults of the form, interval one second. -/
def paramsA : Params := ⟨512, 1, Format.png, false⟩

/-- Concrete parameters with the two second interval of the spec example. -/
def params2s : Params := ⟨512, 2, Format.png, false⟩

/-- A concrete job identifier. -/
def vidA : String := "vid-a"

/-- A source that reports one frame but yields three: frame metadata of
    real containers can under-report the frame count. -/
def srcOver : FrameSource := ⟨true, 30, 1, [frA, frA, frA]⟩

/-- A source that reports zero frames and yields none. -/
def srcZeroEmpty : FrameSource := ⟨true, 30, 0, []⟩

/-- A source that reports zero frames but yields one. -/
def srcZeroOne : FrameSource := ⟨true, 30, 0, [frA]⟩

/-- A source whose capture fails to open. -/
def srcClosed : FrameSource := ⟨false, 30, 10, [frA]⟩

/-- The spec example source: 30 fps, 300 raw frames. -/
def src300 : FrameSource := ⟨true, 30, 300, List.replicate 300 frA⟩

/-- An accurate two frame source. -/
def srcTwo : FrameSource := ⟨true, 30, 2, [frA, frA]⟩

/-- A concrete completed task used to exercise the read endpoints. -/
def taskCompletedA : Task :=
  ⟨Status.completed, 100, 1, 1, some (outputDirFor vidA), none⟩

/-- A concrete registry holding only the completed task above. -/
def regA : String → Option Task :=
  fun v => if v = vidA then some taskCompletedA else none

/-- A concrete output file written by the pipeline. -/
def imgA : SavedImage :=
  ⟨"frame_00000.png", 100, 80, Mode.RGBA, Format.png, none, false⟩

/-- A concrete filesystem: the output directory of vidA holds one file. -/
def fsA : List String → List SavedImage :=
  fun d => if d = outputDirFor vidA then [imgA] else []

/-- Resize as the spec words it, for comparison with resizeFrame: scale
    both dimensions by target_width / currentWidth, rounding the resulting
    height to the nearest integer. -/
def resizeNearestSpec (target_width : Nat) (frame : Frame) : Frame :=
  if target_width < frame.width then
    { frame with
        width := target_width
        height :=
          (round ((frame.height : Rat) * ((target_width : Rat) / (frame.width : Rat)))).toNat }
  else frame

/-- The task state right after the orchestrator has recorded
    total_frames and output_dir: status processing, counters zero. The
    snapshots after the first three mutations of process_video are
    startTask video_id 0 (status set), then startTask video_id tf twice
    (total_frames set, then output_dir overwritten with the value it
    already had from creation). -/
def startTask (video_id : String) (tf : Nat) : Task :=
  ⟨Status.processing, 0, 0, tf, some (outputDirFor video_id), none⟩

/- Bridging lemmas between the Python arithmetic as written and natural
   division. -/

theorem pyInt_of_nonneg {q : Rat} (h : 0 ≤ q) : pyInt q = ⌊q⌋ := if_pos h

theorem pyInt_natCast_div (m n : Nat) :
    (pyInt ((m : Rat) / (n : Rat))).toNat = m / n := by
  have h0 : (0 : Rat) ≤ (m : Rat) / (n : Rat) := by positivity
  rw [pyInt_of_nonneg h0, Int.floor_toNat, Nat.floor_div_eq_div]

theorem progressOf_ok (i tf : Nat) (h : tf ≠ 0) :
    progressOf i tf = Except.ok (i * 100 / tf) := by
  unfold progressOf
  rw [if_neg h]
  congr 1
  have hq : ((i : Rat) / (tf : Rat)) * 100 = ((i * 100 : Nat) : Rat) / (tf : Rat) := by
    push_cast; ring
  rw [hq, pyInt_natCast_div]

theorem resizeFrame_height (tw : Nat) (f : Frame) (h : tw < f.width) :
    resizeFrame tw f =
      { f with width := tw, height := f.height * tw / f.width } := by
  unfold resizeFrame
  rw [if_pos h]
  have hq : (f.height : Rat) * ((tw : Rat) / (f.width : Rat)) =
      ((f.height * tw : Nat) : Rat) / (f.width : Rat) := by
    push_cast; ring
  simp only [hq, pyInt_natCast_div]

/- Structural lemmas about the frame loop. -/

theorem runLoop_nil (p : Params) (fs tf i ex : Nat) (t : Task) :
    runLoop p fs tf [] i ex t = ⟨[], [], [], ex, Except.ok t⟩ := rfl

theorem runLoop_zero (p : Params) (fs i ex : Nat) (t : Task) (f : Frame)
    (rest : List Frame) :
    runLoop p fs 0 (f :: rest) i ex t = ⟨[], [], [], ex, Except.error (zeroDivMsg, t)⟩ := rfl

theorem runLoop_trace_fields (p : Params) (fs tf : Nat) :
    ∀ (frames : List Frame) (i ex : Nat) (t : Task),
      ∀ s ∈ (runLoop p fs tf frames i ex t).trace,
        s.status = t.status ∧ s.error_message = t.error_message ∧
          s.output_dir = t.output_dir ∧ s.total_frames = t.total_frames := by
  intro frames
  induction frames with
  | nil => intro i ex t s hs; simp [runLoop] at hs
  | cons f rest ih =>
    intro i ex t s hs
    by_cases h0 : tf = 0
    · subst h0; simp [runLoop, progressOf] at hs
    · rw [runLoop, progressOf_ok i tf h0] at hs
      by_cases hm : i % fs = 0 <;> simp only [hm, if_true, if_false, reduceIte] at hs <;>
        simp only [List.mem_cons] at hs <;>
        rcases hs with hs | hs
      · subst hs; simp
      · have := ih (i + 1) (ex + 1) _ s hs
        simpa using this
      · subst hs; simp
      · have := ih (i + 1) ex _ s hs
        simpa using this

theorem runLoop_result_fields (p : Params) (fs tf : Nat) :
    ∀ (frames : List Frame) (i ex : Nat) (t : Task),
      (resTask (runLoop p fs tf frames i ex t).result).status = t.status ∧
        (resTask (runLoop p fs tf frames i ex t).result).error_message = t.error_message ∧
        (resTask (runLoop p fs tf frames i ex t).result).output_dir = t.output_dir ∧
        (resTask (runLoop p fs tf frames i ex t).result).total_frames = t.total_frames := by
  intro frames
  induction frames with
  | nil => intro i ex t; simp [runLoop, resTask]
  | cons f rest ih =>
    intro i ex t
    by_cases h0 : tf = 0
    · subst h0; simp [runLoop, progressOf, resTask]
    · rw [runLoop, progressOf_ok i tf h0]
      by_cases hm : i % fs = 0 <;> simp only [hm, reduceIte] <;>
        simpa using ih (i + 1) _ _

theorem runLoop_result_ok (p : Params) (fs tf : Nat) (h0 : tf ≠ 0) :
    ∀ (frames : List Frame) (i ex : Nat) (t : Task),
      ∃ t4, (runLoop p fs tf frames i ex t).result = Except.ok t4 := by
  intro frames
  induction frames with
  | nil => intro i ex t; exact ⟨t, rfl⟩
  | cons f rest ih =>
    intro i ex t
    rw [runLoop, progressOf_ok i tf h0]
    by_cases hm : i % fs = 0 <;> simp only [hm, reduceIte] <;> exact ih (i + 1) _ _

theorem runLoop_chain_progress (p : Params) (fs tf : Nat) (h0 : tf ≠ 0) :
    ∀ (frames : List Frame) (i ex : Nat) (t : Task),
      t.progress ≤ i * 100 / tf →
      List.Chain' (fun a b : Task => a.progress ≤ b.progress)
        (t :: (runLoop p fs tf frames i ex t).trace) := by
  intro frames
  induction frames with
  | nil => intro i ex t _; simp [runLoop]
  | cons f rest ih =>
    intro i ex t ht
    rw [runLoop, progressOf_ok i tf h0]
    have hstep : i * 100 / tf ≤ (i + 1) * 100 / tf :=
      Nat.div_le_div_right (Nat.mul_le_mul_right _ (Nat.le_succ i))
    by_cases hm : i % fs = 0 <;> simp only [hm, reduceIte] <;>
      refine List.chain'_cons.mpr ⟨ht, ?_⟩ <;>
      exact ih (i + 1) _ _ hstep

theorem runLoop_progress_lt (p : Params) (fs tf : Nat) :
    ∀ (frames : List Frame) (i ex : Nat) (t : Task),
      i + frames.length ≤ tf →
      ∀ s ∈ (runLoop p fs tf frames i ex t).trace, s.progress < 100 := by
  intro frames
  induction frames with
  | nil => intro i ex t _ s hs; simp [runLoop] at hs
  | cons f rest ih =>
    intro i ex t hlen s hs
    have h0 : tf ≠ 0 := by
      intro h; subst h; simp at hlen
    have hi : i < tf := by simp at hlen; omega
    have hp : i * 100 / tf < 100 := by
      rw [Nat.div_lt_iff_lt_mul (Nat.pos_of_ne_zero h0)]
      omega
    rw [runLoop, progressOf_ok i tf h0] at hs
    by_cases hm : i % fs = 0 <;> simp only [hm, reduceIte] at hs <;>
      simp only [List.mem_cons] at hs <;>
      rcases hs with hs | hs
    · subst hs; simpa using hp
    · exact ih (i + 1) _ _ (by simp at hlen ⊢; omega) s hs
    · subst hs; simpa using hp
    · exact ih (i + 1) _ _ (by simp at hlen ⊢; omega) s hs

theorem runLoop_sampled_mem (p : Params) (fs tf : Nat) (h0 : tf ≠ 0) :
    ∀ (frames : List Frame) (i ex : Nat) (t : Task) (j : Nat),
      (j ∈ (runLoop p fs tf frames i ex t).sampled ↔
        (i ≤ j ∧ j < i + frames.length ∧ j % fs = 0)) := by
  intro frames
  induction frames with
  | nil => intro i ex t j; simp [runLoop]; omega
  | cons f rest ih =>
    intro i ex t j
    rw [runLoop, progressOf_ok i tf h0]
    by_cases hm : i % fs = 0 <;> simp only [hm, reduceIte]
    · simp only [List.mem_cons, ih (i + 1)]
      constructor
      · rintro (rfl | ⟨h1, h2, h3⟩)
        · exact ⟨le_refl j, by simp, hm⟩
        · exact ⟨by omega, by simp; omega, h3⟩
      · rintro ⟨h1, h2, h3⟩
        rcases Nat.eq_or_lt_of_le h1 with rfl | hlt
        · exact Or.inl rfl
        · right; refine ⟨hlt, by simp at h2 ⊢; omega, h3⟩
    · rw [ih (i + 1)]
      constructor
      · rintro ⟨h1, h2, h3⟩
        exact ⟨by omega, by simp at h2 ⊢; omega, h3⟩
      · rintro ⟨h1, h2, h3⟩
        rcases Nat.eq_or_lt_of_le h1 with rfl | hlt
        · exact absurd h3 hm
        · exact ⟨hlt, by simp at h2 ⊢; omega, h3⟩

/- Chain helpers. -/

theorem chain'_snoc {α : Type} {R : α → α → Prop} :
    ∀ (l : List α) (z : α), List.Chain' R l → (∀ y ∈ l, R y z) →
      List.Chain' R (l ++ [z])
  | [], _, _, _ => by simp
  | [a], z, _, h2 => by
      simpa [List.chain'_cons] using h2 a (by simp)
  | a :: b :: l, z, h1, h2 => by
      rw [List.cons_append]
      rw [List.chain'_cons] at h1
      refine List.chain'_cons.mpr ⟨h1.1, ?_⟩
      exact chain'_snoc (b :: l) z h1.2 (fun y hy => h2 y (List.mem_cons_of_mem _ hy))

theorem chain'_of_forall_pairs {α : Type} {R : α → α → Prop} :
    ∀ (l : List α), (∀ a ∈ l, ∀ b ∈ l, R a b) → List.Chain' R l
  | [], _ => by simp
  | [_], _ => by simp
  | a :: b :: l, h => by
      refine List.chain'_cons.mpr ⟨h a (by simp) b (by simp), ?_⟩
      exact chain'_of_forall_pairs (b :: l)
        (fun x hx y hy => h x (List.mem_cons_of_mem _ hx) y (List.mem_cons_of_mem _ hy))

/- Path shape lemmas for process_video started on a fresh registry
   entry. -/

theorem pv_open_fail (video_id : String) (src : FrameSource) (params : Params)
    (h : src.opened = false) :
    process_video video_id src params (initTask video_id) =
      ⟨[⟨Status.processing, 0, 0, 0, some (outputDirFor video_id), none⟩,
        ⟨Status.error, 0, 0, 0, some (outputDirFor video_id),
          some (procErrPrefix ++ openFailMsg)⟩,
        ⟨Status.error, 100, 0, 0, some (outputDirFor video_id),
          some (procErrPrefix ++ openFailMsg)⟩],
       ⟨Status.error, 100, 0, 0, some (outputDirFor video_id),
         some (procErrPrefix ++ openFailMsg)⟩,
       [], [], false, true⟩ := by
  simp [process_video, h, initTask, applyFinally]

theorem pv_zero_frames (video_id : String) (src : FrameSource) (params : Params)
    (h : src.opened = true) (h0 : src.total_frames = 0) (hf : src.frames = []) :
    process_video video_id src params (initTask video_id) =
      ⟨[startTask video_id 0, startTask video_id 0, startTask video_id 0,
        ⟨Status.completed, 100, 0, 0, some (outputDirFor video_id), none⟩],
       ⟨Status.completed, 100, 0, 0, some (outputDirFor video_id), none⟩,
       [], [], true, true⟩ := by
  simp [process_video, h, h0, hf, initTask, startTask, applyFinally, runLoop]

theorem pv_zero_div (video_id : String) (src : FrameSource) (params : Params)
    (f : Frame) (rest : List Frame)
    (h : src.opened = true) (h0 : src.total_frames = 0) (hf : src.frames = f :: rest) :
    process_video video_id src params (initTask video_id) =
      ⟨[startTask video_id 0, startTask video_id 0, startTask video_id 0,
        ⟨Status.error, 0, 0, 0, some (outputDirFor video_id),
          some (procErrPrefix ++ zeroDivMsg)⟩,
        ⟨Status.error, 100, 0, 0, some (outputDirFor video_id),
          some (procErrPrefix ++ zeroDivMsg)⟩],
       ⟨Status.error, 100, 0, 0, some (outputDirFor video_id),
         some (procErrPrefix ++ zeroDivMsg)⟩,
       [], [], false, true⟩ := by
  simp [process_video, h, h0, hf, initTask, startTask, applyFinally, runLoop, progressOf]

theorem pv_success (video_id : String) (src : FrameSource) (params : Params)
    (h : src.opened = true) (h0 : src.total_frames ≠ 0) :
    ∃ t4,
      (runLoop params (frameSkip src.fps params.interval) src.total_frames src.frames 0 0
          (startTask video_id src.total_frames)).result = Except.ok t4 ∧
      process_video video_id src params (initTask video_id) =
        ⟨startTask video_id 0 :: startTask video_id src.total_frames ::
            startTask video_id src.total_frames ::
            ((runLoop params (frameSkip src.fps params.interval) src.total_frames src.frames 0 0
                (startTask video_id src.total_frames)).trace ++
              [{ t4 with
                   progress := 100
                   frames_count :=
                     (runLoop params (frameSkip src.fps params.interval) src.total_frames
                       src.frames 0 0 (startTask video_id src.total_frames)).extracted
                   status := Status.completed }]),
         { t4 with
             progress := 100
             frames_count :=
               (runLoop params (frameSkip src.fps params.interval) src.total_frames
                 src.frames 0 0 (startTask video_id src.total_frames)).extracted
             status := Status.completed },
         (runLoop params (frameSkip src.fps params.interval) src.total_frames src.frames 0 0
           (startTask video_id src.total_frames)).saved,
         (runLoop params (frameSkip src.fps params.interval) src.total_frames src.frames 0 0
           (startTask video_id src.total_frames)).sampled,
         true, true⟩ := by
  obtain ⟨t4, ht4⟩ :=
    runLoop_result_ok params (frameSkip src.fps params.interval) src.total_frames h0
      src.frames 0 0 (startTask video_id src.total_frames)
  refine ⟨t4, ht4, ?_⟩
  have ht4b := ht4
  simp only [startTask] at ht4b
  simp [process_video, h, initTask, startTask, applyFinally, ht4b]

theorem resizeFrame_mode (tw : Nat) (f : Frame) : (resizeFrame tw f).mode = f.mode := by
  unfold resizeFrame
  split <;> rfl

theorem relpath_snoc (l : List String) (x : String) : relpath (l ++ [x]) l = [x] := by
  unfold relpath
  simp

/-- C5 counterexample: the code truncates the scaled height with int()
    rather than rounding it to the nearest integer. A 3 by 4 frame resized
    to target width 2 gets height 2 from the code, while rounding
    4 * (2 / 3) to the nearest integer gives height 3, so the claim is
    false at this input. -/
theorem c5_resize_rounding_cex :
    resizeFrame 2 ⟨3, 4, Mode.BGR⟩ = ⟨2, 2, Mode.BGR⟩ ∧
    resizeNearestSpec 2 ⟨3, 4, Mode.BGR⟩ = ⟨2, 3, Mode.BGR⟩ ∧
    resizeFrame 2 ⟨3, 4, Mode.BGR⟩ ≠ resizeNearestSpec 2 ⟨3, 4, Mode.BGR⟩ := by
  have h1 : resizeFrame 2 ⟨3, 4, Mode.BGR⟩ = ⟨2, 2, Mode.BGR⟩ := by
    rw [resizeFrame_height 2 ⟨3, 4, Mode.BGR⟩ (by decide)]
    decide
  have h2 : resizeNearestSpec 2 ⟨3, 4, Mode.BGR⟩ = ⟨2, 3, Mode.BGR⟩ := by
    have hr : round (((4 : Nat) : Rat) * (((2 : Nat) : Rat) / ((3 : Nat) : Rat))) = 3 := by
      have hq : ((4 : Nat) : Rat) * (((2 : Nat) : Rat) / ((3 : Nat) : Rat)) = 8 / 3 := by
        push_cast; ring
      rw [hq, round_eq]
      norm_num
    unfold resizeNearestSpec
    rw [if_pos (by decide)]
    simp only []
    rw [show ((⟨3, 4, Mode.BGR⟩ : Frame).height : Rat) = ((4 : Nat) : Rat) from rfl,
      show (((2 : Nat) : Rat) / ((⟨3, 4, Mode.BGR⟩ : Frame).width : Rat)) =
        (((2 : Nat) : Rat) / ((3 : Nat) : Rat)) from rfl, hr]
    decide
  exact ⟨h1, h2, by rw [h1, h2]; decide⟩

/-- C5 amended: the resize step scales only when the width exceeds
    target_width, producing width target_width and height equal to the
    floor (truncation, not nearest rounding) of height times target_width
    over width; it never upscales and keeps the channel mode; the two
    concrete examples of the claim hold as stated. -/
theorem c5_resize_amended (tw : Nat) (f : Frame) :
    (tw < f.width →
        resizeFrame tw f = { f with width := tw, height := f.height * tw / f.width }) ∧
    (f.width ≤ tw → resizeFrame tw f = f) ∧
    (resizeFrame tw f).width ≤ f.width ∧
    (resizeFrame tw f).height ≤ f.height ∧
    (resizeFrame tw f).mode = f.mode ∧
    resizeFrame 500 ⟨1000, 600, Mode.BGR⟩ = ⟨500, 300, Mode.BGR⟩ ∧
    resizeFrame 500 ⟨400, 300, Mode.BGR⟩ = ⟨400, 300, Mode.BGR⟩ := by
  have hnoup : ∀ (tw2 : Nat) (g : Frame), g.width ≤ tw2 → resizeFrame tw2 g = g := by
    intro tw2 g hle
    unfold resizeFrame
    rw [if_neg (not_lt.mpr hle)]
  have hbig : resizeFrame 500 ⟨1000, 600, Mode.BGR⟩ = ⟨500, 300, Mode.BGR⟩ := by
    rw [resizeFrame_height 500 ⟨1000, 600, Mode.BGR⟩ (by decide)]
    decide
  refine ⟨resizeFrame_height tw f, hnoup tw f, ?_, ?_, resizeFrame_mode tw f, hbig,
    hnoup 500 ⟨400, 300, Mode.BGR⟩ (by decide)⟩
  · by_cases hlt : tw < f.width
    · rw [resizeFrame_height tw f hlt]
      exact le_of_lt hlt
    · rw [hnoup tw f (not_lt.mp hlt)]
  · by_cases hlt : tw < f.width
    · rw [resizeFrame_height tw f hlt]
      have hw : 0 < f.width := Nat.lt_of_le_of_lt (Nat.zero_le tw) hlt
      calc f.height * tw / f.width
          ≤ f.height * f.width / f.width :=
            Nat.div_le_div_right (Nat.mul_le_mul_left _ (le_of_lt hlt))
        _ = f.height := Nat.mul_div_cancel _ hw
    · rw [hnoup tw f (not_lt.mp hlt)]

/-- C5 witness: the amended theorem applied at the concrete inputs of the
    counterexample and of the no-upscale example. -/
theorem c5_resize_amended_witness :
    (2 < 3 ∧
      resizeFrame 2 ⟨3, 4, Mode.BGR⟩ =
        { (⟨3, 4, Mode.BGR⟩ : Frame) with width := 2, height := 4 * 2 / 3 }) ∧
    (5 ≤ 7 ∧ resizeFrame 7 ⟨5, 4, Mode.BGR⟩ = ⟨5, 4, Mode.BGR⟩) :=
  ⟨⟨by decide, (c5_resize_amended 2 ⟨3, 4, Mode.BGR⟩).1 (by decide)⟩,
   ⟨by decide, (c5_resize_amended 7 ⟨5, 4, Mode.BGR⟩).2.1 (by decide)⟩⟩

/-- C7: the encode stage follows the output format policy: a jpg request
    flattens the RGBA background-removed result to opaque RGB and encodes
    at fixed quality 95; png keeps the alpha channel; webp keeps the alpha
    channel and passes lossless encoding. -/
theorem c7_encode_policy (itv : Rat) (tw n : Nat) (ub : Bool) (f : Frame) :
    (processFrame ⟨tw, itv, Format.jpg, ub⟩ n f).mode = Mode.RGB ∧
    (processFrame ⟨tw, itv, Format.jpg, ub⟩ n f).quality = some 95 ∧
    (processFrame ⟨tw, itv, Format.png, ub⟩ n f).mode = Mode.RGBA ∧
    (processFrame ⟨tw, itv, Format.webp, ub⟩ n f).mode = Mode.RGBA ∧
    (processFrame ⟨tw, itv, Format.webp, ub⟩ n f).lossless = true := by
  refine ⟨?_, ?_, ?_, ?_, ?_⟩ <;>
    simp [processFrame, encodeSave, remove, cvtColorBGR2RGB, unsharp_mask]

/-- C9 counterexample: the registry entry created at submission already
    carries the output directory, so output_dir is not unset at creation. -/
theorem c9_output_dir_cex : (initTask vidA).output_dir ≠ none := by
  simp [initTask]

/-- C9 amended: output_dir is set at creation to the value
    os.path.join(OUTPUT_FOLDER, video_id); the orchestrator re-assigns the
    identical value during processing, so across the whole lifetime of the
    job the field never changes value. -/
theorem c9_output_dir_amended (video_id : String) (src : FrameSource) (params : Params) :
    (initTask video_id).output_dir = some (outputDirFor video_id) ∧
    (∀ s ∈ (process_video video_id src params (initTask video_id)).trace,
        s.output_dir = some (outputDirFor video_id)) ∧
    (process_video video_id src params (initTask video_id)).final.output_dir =
      some (outputDirFor video_id) := by
  refine ⟨rfl, ?_, ?_⟩ <;>
    by_cases hop : src.opened
  case pos =>
    by_cases h0 : src.total_frames = 0
    · cases hf : src.frames with
      | nil =>
        rw [pv_zero_frames video_id src params hop h0 hf]
        intro s hs
        simp only [List.mem_cons, List.not_mem_nil, or_false] at hs
        rcases hs with rfl | rfl | rfl | rfl <;> rfl
      | cons f rest =>
        rw [pv_zero_div video_id src params f rest hop h0 hf]
        intro s hs
        simp only [List.mem_cons, List.not_mem_nil, or_false] at hs
        rcases hs with rfl | rfl | rfl | rfl | rfl <;> rfl
    · obtain ⟨t4, ht4, heq⟩ := pv_success video_id src params hop h0
      have hres := runLoop_result_fields params (frameSkip src.fps params.interval)
        src.total_frames src.frames 0 0 (startTask video_id src.total_frames)
      rw [ht4] at hres
      simp only [resTask] at hres
      rw [heq]
      intro s hs
      simp only [List.mem_cons, List.mem_append, List.mem_singleton, List.not_mem_nil,
        or_false] at hs
      rcases hs with rfl | rfl | rfl | hs | rfl
      · rfl
      · rfl
      · rfl
      · exact (runLoop_trace_fields params (frameSkip src.fps params.interval)
          src.total_frames src.frames 0 0 (startTask video_id src.total_frames) s hs).2.2.1
      · exact hres.2.2.1
  case neg =>
    rw [pv_open_fail video_id src params (by simpa using hop)]
    intro s hs
    simp only [List.mem_cons, List.not_mem_nil, or_false] at hs
    rcases hs with rfl | rfl | rfl <;> rfl
  case pos =>
    by_cases h0 : src.total_frames = 0
    · cases hf : src.frames with
      | nil => rw [pv_zero_frames video_id src params hop h0 hf]
      | cons f rest => rw [pv_zero_div video_id src params f rest hop h0 hf]
    · obtain ⟨t4, ht4, heq⟩ := pv_success video_id src params hop h0
      have hres := runLoop_result_fields params (frameSkip src.fps params.interval)
        src.total_frames src.frames 0 0 (startTask video_id src.total_frames)
      rw [ht4] at hres
      simp only [resTask] at hres
      rw [heq]
      exact hres.2.2.1
  case neg =>
    rw [pv_open_fail video_id src params (by simpa using hop)]

/-- C10: serve_frame joins the caller supplied filename directly onto the
    output directory of the task and serves the resulting path whenever
    the task exists with status processing or completed, for every
    filename; no check that the resolved path stays inside the output
    directory is performed, and the dot-dot filename resolves outside the
    output directory yet is still served. -/
theorem c10_serve_no_containment (reg : String → Option Task) (video_id filename : String)
    (t : Task) (hreg : reg video_id = some t)
    (hst : t.status = Status.processing ∨ t.status = Status.completed) :
    serve_frame reg video_id filename =
      ServeResp.file (t.output_dir.getD [] ++ [filename]) ∧
    ¬ withinDir (outputDirFor vidA) (outputDirFor vidA ++ [".."]) ∧
    serve_frame regA vidA ("..") = ServeResp.file (outputDirFor vidA ++ [".."]) := by
  refine ⟨?_, by decide, by decide⟩
  unfold serve_frame
  rw [hreg]
  simp only [if_pos hst]

/-- C10 witness: the theorem applied to the concrete registry holding a
    completed task. -/
theorem c10_serve_witness :
    regA vidA = some taskCompletedA ∧
    (taskCompletedA.status = Status.processing ∨ taskCompletedA.status = Status.completed) ∧
    serve_frame regA vidA ("frame_00000.png") =
      ServeResp.file (taskCompletedA.output_dir.getD [] ++ ["frame_00000.png"]) :=
  ⟨by decide, Or.inr rfl,
    (c10_serve_no_containment regA vidA ("frame_00000.png") taskCompletedA (by decide)
      (Or.inr rfl)).1⟩

/-- C8: download_zip returns NotFound for an absent id and for every task
    whose status is not completed; for a completed job it returns the
    deflate compressed archive holding every output file at the archive
    root (each archive name is the bare filename, a single component, no
    nested paths); the source filesystem is returned unchanged and an
    immediate second request yields the identical response. -/
theorem c8_download (reg : String → Option Task) (fsFiles : List String → List SavedImage)
    (video_id : String) :
    (reg video_id = none → (download_zip reg fsFiles video_id).1 = DlResp.notFound) ∧
    (∀ t, reg video_id = some t → t.status ≠ Status.completed →
        (download_zip reg fsFiles video_id).1 = DlResp.notFound) ∧
    (∀ t, reg video_id = some t → t.status = Status.completed →
        (download_zip reg fsFiles video_id).1 =
          DlResp.ok ⟨(fsFiles (t.output_dir.getD [])).map (fun f => ([f.filename], f)),
            Compression.deflated⟩) ∧
    (download_zip reg fsFiles video_id).2 = fsFiles ∧
    download_zip reg (download_zip reg fsFiles video_id).2 video_id =
      download_zip reg fsFiles video_id := by
  have h2 : (download_zip reg fsFiles video_id).2 = fsFiles := by
    unfold download_zip
    cases hreg : reg video_id with
    | none => rfl
    | some t => by_cases hst : t.status = Status.completed <;> simp [hst]
  refine ⟨?_, ?_, ?_, h2, by rw [h2]⟩
  · intro hreg
    unfold download_zip
    rw [hreg]
  · intro t hreg hst
    unfold download_zip
    rw [hreg]
    simp [hst]
  · intro t hreg hst
    unfold download_zip
    rw [hreg]
    simp [hst, relpath_snoc]

/-- C8 witness: the theorem applied to the concrete registry, both on the
    completed job and on an absent id. -/
theorem c8_download_witness :
    (regA vidA = some taskCompletedA ∧ taskCompletedA.status = Status.completed ∧
      (download_zip regA fsA vidA).1 =
        DlResp.ok ⟨(fsA (taskCompletedA.output_dir.getD [])).map (fun f => ([f.filename], f)),
          Compression.deflated⟩) ∧
    (regA ("absent") = none ∧ (download_zip regA fsA ("absent")).1 = DlResp.notFound) := by
  have hr : regA vidA = some taskCompletedA := by decide
  have hm : regA ("absent") = none := by decide
  exact ⟨⟨hr, rfl, (c8_download regA fsA vidA).2.2.1 taskCompletedA hr rfl⟩,
    ⟨hm, (c8_download regA fsA ("absent")).1 hm⟩⟩

/-- C3 counterexample: a source that reports total_frames equal to zero
    but yields one frame makes the progress computation divide by zero;
    the ZeroDivisionError is caught and the job ends in error, not
    completed, so progress is not clamped to zero and the job does not
    complete as the claim states. -/
theorem c3_zero_division_cex :
    (process_video vidA srcZeroOne paramsA (initTask vidA)).final.status = Status.error ∧
    (process_video vidA srcZeroOne paramsA (initTask vidA)).final.error_message =
      some (procErrPrefix ++ zeroDivMsg) ∧
    (process_video vidA srcZeroOne paramsA (initTask vidA)).final.status ≠
      Status.completed := by
  rw [pv_zero_div vidA srcZeroOne paramsA frA [] rfl rfl rfl]
  exact ⟨rfl, rfl, by decide⟩

/-- C3 amended: when the source reports total_frames zero and yields no
    frames, no division is performed and the job completes with
    frames_count 0 and progress 100; when such a source nonetheless yields
    a frame, the progress computation divides by zero, the job terminates
    in the error state, and progress is still forced to 100. -/
theorem c3_zero_frames_amended (video_id : String) (src : FrameSource) (params : Params)
    (h : src.opened = true) (h0 : src.total_frames = 0) :
    (src.frames = [] →
        (process_video video_id src params (initTask video_id)).final =
          ⟨Status.completed, 100, 0, 0, some (outputDirFor video_id), none⟩) ∧
    (∀ f rest, src.frames = f :: rest →
        (process_video video_id src params (initTask video_id)).final.status = Status.error ∧
        (process_video video_id src params (initTask video_id)).final.progress = 100) := by
  constructor
  · intro hf
    rw [pv_zero_frames video_id src params h h0 hf]
  · intro f rest hf
    rw [pv_zero_div video_id src params f rest h h0 hf]
    exact ⟨rfl, rfl⟩

/-- C3 witness: the amended theorem applied to the zero frame source and
    to the mismatched zero report source. -/
theorem c3_zero_frames_amended_witness :
    (srcZeroEmpty.opened = true ∧ srcZeroEmpty.total_frames = 0 ∧
      (process_video vidA srcZeroEmpty paramsA (initTask vidA)).final =
        ⟨Status.completed, 100, 0, 0, some (outputDirFor vidA), none⟩) ∧
    (srcZeroOne.frames = frA :: [] ∧
      (process_video vidA srcZeroOne params2s (initTask vidA)).final.status = Status.error) :=
  ⟨⟨rfl, rfl, (c3_zero_frames_amended vidA srcZeroEmpty paramsA rfl rfl).1 rfl⟩,
   ⟨rfl, ((c3_zero_frames_amended vidA srcZeroOne params2s rfl rfl).2 frA [] rfl).1⟩⟩

/-- C4 counterexample: on the ZeroDivisionError path the job reaches the
    error terminal state with the upload deleted but with the capture
    never released, because cap.release() sits inside try on the normal
    path only, so the claim that every exit path releases the source is
    false at this input. -/
theorem c4_cleanup_cex :
    (process_video vidA srcZeroOne params2s (initTask vidA)).final.status = Status.error ∧
    (process_video vidA srcZeroOne params2s (initTask vidA)).released = false ∧
    (process_video vidA srcZeroOne params2s (initTask vidA)).fileDeleted = true := by
  rw [pv_zero_div vidA srcZeroOne params2s frA [] rfl rfl rfl]
  exact ⟨rfl, rfl, rfl⟩

/-- C4 amended: the uploaded artifact is deleted on every exit path of
    process_video, but the FrameSource is released exactly on the normal
    path, the one that ends completed; on the open failure path and on the
    in-loop exception path the capture is not released. -/
theorem c4_cleanup_amended (video_id : String) (src : FrameSource) (params : Params) :
    (process_video video_id src params (initTask video_id)).fileDeleted = true ∧
    ((process_video video_id src params (initTask video_id)).released = true ↔
      (process_video video_id src params (initTask video_id)).final.status =
        Status.completed) := by
  by_cases hop : src.opened
  · by_cases h0 : src.total_frames = 0
    · cases hf : src.frames with
      | nil =>
        rw [pv_zero_frames video_id src params hop h0 hf]
        exact ⟨rfl, by simp⟩
      | cons f rest =>
        rw [pv_zero_div video_id src params f rest hop h0 hf]
        exact ⟨rfl, by simp⟩
    · obtain ⟨t4, ht4, heq⟩ := pv_success video_id src params hop h0
      rw [heq]
      exact ⟨rfl, by simp⟩
  · rw [pv_open_fail video_id src params (by simpa using hop)]
    exact ⟨rfl, by simp⟩

theorem runLoop_trace_progress (p : Params) (fs tf : Nat) (h0 : tf ≠ 0) :
    ∀ (frames : List Frame) (i ex : Nat) (t : Task),
      (runLoop p fs tf frames i ex t).trace.map Task.progress =
        (List.range' i frames.length).map (fun j => j * 100 / tf) := by
  intro frames
  induction frames with
  | nil => intro i ex t; simp [runLoop]
  | cons f rest ih =>
    intro i ex t
    rw [runLoop, progressOf_ok i tf h0]
    by_cases hm : i % fs = 0 <;>
      simp only [hm, reduceIte, List.length_cons, List.range'_succ, List.map_cons] <;>
      rw [ih (i + 1)]

theorem pyInt_30_2 : pyInt ((30 : Rat) * 2) = 60 := by
  unfold pyInt
  rw [if_pos (by norm_num)]
  norm_num

theorem frameSkip_30_2 : frameSkip 30 2 = 60 := by
  unfold frameSkip
  rw [pyInt_30_2]
  decide

/-- C2: frame_skip is computed as max(1, floor(fps * interval_sec)) and so
    is at least 1 for any positive fps and interval; during a run that
    reads frames, a raw frame index is passed to the pipeline exactly when
    it is divisible by frame_skip and every other frame is discarded; with
    fps 30 and interval 2.0 the stride is 60, and the 300 frame source is
    sampled exactly at indices 0, 60, 120, 180 and 240. -/
theorem c2_sampling :
    (∀ fps itv : Rat, 0 < fps → 0 < itv → 1 ≤ frameSkip fps itv) ∧
    (∀ (video_id : String) (src : FrameSource) (params : Params) (j : Nat),
        src.opened = true → src.total_frames ≠ 0 →
        (j ∈ (process_video video_id src params (initTask video_id)).sampled ↔
          j < src.frames.length ∧ j % frameSkip src.fps params.interval = 0)) ∧
    frameSkip 30 2 = 60 ∧
    (process_video vidA src300 params2s (initTask vidA)).sampled =
      [0, 60, 120, 180, 240] := by
  refine ⟨?_, ?_, frameSkip_30_2, ?_⟩
  · intro fps itv _ _
    unfold frameSkip
    have h := le_max_left 1 (pyInt (fps * itv))
    omega
  · intro video_id src params j hop h0
    obtain ⟨t4, ht4, heq⟩ := pv_success video_id src params hop h0
    rw [heq]
    dsimp only
    rw [runLoop_sampled_mem params (frameSkip src.fps params.interval) src.total_frames h0
      src.frames 0 0 (startTask video_id src.total_frames) j]
    constructor
    · rintro ⟨h1, h2, h3⟩
      exact ⟨by omega, h3⟩
    · rintro ⟨h1, h2⟩
      exact ⟨Nat.zero_le j, by omega, h2⟩
  · obtain ⟨t4, ht4, heq⟩ := pv_success vidA src300 params2s rfl (by decide)
    rw [heq]
    dsimp only
    rw [show frameSkip src300.fps params2s.interval = 60 from frameSkip_30_2]
    decide

/-- C2 witness: the theorem applied at fps 30, interval 2, and at the
    concrete accurate two frame source at index 0. -/
theorem c2_sampling_witness :
    (0 < (30 : Rat) ∧ 0 < (2 : Rat) ∧ 1 ≤ frameSkip 30 2) ∧
    (srcTwo.opened = true ∧ srcTwo.total_frames ≠ 0 ∧
      (0 ∈ (process_video vidA srcTwo paramsA (initTask vidA)).sampled ↔
        0 < srcTwo.frames.length ∧ 0 % frameSkip srcTwo.fps paramsA.interval = 0)) :=
  ⟨⟨by norm_num, by norm_num, c2_sampling.1 30 2 (by norm_num) (by norm_num)⟩,
   ⟨rfl, by decide, c2_sampling.2.1 vidA srcTwo paramsA 0 rfl (by decide)⟩⟩

/-- C1 counterexample: with a source that under-reports its frame count
    (reported 1, yields 3) the recorded progress values are
    0, 0, 0, 0, 0, 100, 200, 100: progress exceeds 100 during processing
    and then decreases back to 100 at completion, so the claim that
    progress stays within 0 to 100 and never decreases is false at this
    input. -/
theorem c1_progress_cex :
    ((initTask vidA :: (process_video vidA srcOver paramsA (initTask vidA)).trace).map
        Task.progress) = [0, 0, 0, 0, 0, 100, 200, 100] ∧
    ¬ List.Chain' (fun a b : Nat => a ≤ b)
      ((initTask vidA :: (process_video vidA srcOver paramsA (initTask vidA)).trace).map
        Task.progress) ∧
    ¬ (∀ q ∈ (initTask vidA :: (process_video vidA srcOver paramsA (initTask vidA)).trace).map
        Task.progress, q ≤ 100) := by
  have hmap : ((initTask vidA ::
      (process_video vidA srcOver paramsA (initTask vidA)).trace).map Task.progress) =
        [0, 0, 0, 0, 0, 100, 200, 100] := by
    obtain ⟨t4, ht4, heq⟩ := pv_success vidA srcOver paramsA rfl (by decide)
    rw [heq]
    dsimp only
    rw [List.map_cons, List.map_cons, List.map_cons, List.map_cons, List.map_append,
      runLoop_trace_progress paramsA (frameSkip srcOver.fps paramsA.interval)
        srcOver.total_frames (by decide) srcOver.frames 0 0 (startTask vidA srcOver.total_frames)]
    simp only [srcOver, initTask, startTask, List.map_cons, List.map_nil]
    decide
  refine ⟨hmap, ?_, ?_⟩
  · rw [hmap]
    simp [List.chain'_cons]
  · rw [hmap]
    intro hall
    have h200 := hall 200 (by simp)
    omega

/-- C1 amended: for every job whose source yields no more raw frames than
    its reported total_frames (in particular every accurately reported
    source), progress is monotonically non-decreasing across all recorded
    updates, stays within 0 and 100, stays strictly below 100 on every
    non-terminal snapshot, and the resting terminal state has progress
    exactly 100 on the success path and on the failure path alike. For a
    source yielding more frames than reported the bound 100 and the
    monotonicity can fail, see the counterexample. -/
theorem c1_progress_amended (video_id : String) (src : FrameSource) (params : Params)
    (h : src.frames.length ≤ src.total_frames) :
    List.Chain' (fun a b : Task => a.progress ≤ b.progress)
      (initTask video_id :: (process_video video_id src params (initTask video_id)).trace) ∧
    (∀ s ∈ initTask video_id :: (process_video video_id src params (initTask video_id)).trace,
        s.progress ≤ 100) ∧
    (∀ s ∈ (process_video video_id src params (initTask video_id)).trace,
        s.status ≠ Status.completed → s.status ≠ Status.error → s.progress < 100) ∧
    ((process_video video_id src params (initTask video_id)).final.status = Status.completed ∨
      (process_video video_id src params (initTask video_id)).final.status = Status.error) ∧
    (process_video video_id src params (initTask video_id)).final.progress = 100 := by
  by_cases hop : src.opened
  · by_cases h0 : src.total_frames = 0
    · have hf : src.frames = [] := List.length_eq_zero.mp (by omega)
      rw [pv_zero_frames video_id src params hop h0 hf]
      refine ⟨?_, ?_, ?_, Or.inl rfl, rfl⟩
      · simp [List.chain'_cons, initTask, startTask]
      · intro s hs
        simp only [List.mem_cons, List.not_mem_nil, or_false] at hs
        rcases hs with rfl | rfl | rfl | rfl | rfl <;> simp [initTask, startTask]
      · intro s hs h1 h2
        simp only [List.mem_cons, List.not_mem_nil, or_false] at hs
        rcases hs with rfl | rfl | rfl | rfl
        · exact Nat.zero_lt_succ 99
        · exact Nat.zero_lt_succ 99
        · exact Nat.zero_lt_succ 99
        · exact absurd rfl h1
    · obtain ⟨t4, ht4, heq⟩ := pv_success video_id src params hop h0
      have hchain := runLoop_chain_progress params (frameSkip src.fps params.interval)
        src.total_frames h0 src.frames 0 0 (startTask video_id src.total_frames)
        (Nat.zero_le _)
      have hlt := runLoop_progress_lt params (frameSkip src.fps params.interval)
        src.total_frames src.frames 0 0 (startTask video_id src.total_frames)
        (by simpa using h)
      rw [heq]
      dsimp only
      refine ⟨?_, ?_, ?_, Or.inl rfl, rfl⟩
      · refine List.chain'_cons.mpr ⟨Nat.le_refl 0, ?_⟩
        refine List.chain'_cons.mpr ⟨Nat.le_refl 0, ?_⟩
        refine List.chain'_cons.mpr ⟨Nat.le_refl 0, ?_⟩
        rw [← List.cons_append]
        refine chain'_snoc _ _ hchain ?_
        intro y hy
        simp only [List.mem_cons] at hy
        rcases hy with rfl | hy
        · exact Nat.zero_le 100
        · exact le_of_lt (hlt y hy)
      · intro s hs
        simp only [List.mem_cons, List.mem_append, List.not_mem_nil, or_false] at hs
        rcases hs with rfl | rfl | rfl | rfl | hs | rfl
        · exact Nat.zero_le 100
        · exact Nat.zero_le 100
        · exact Nat.zero_le 100
        · exact Nat.zero_le 100
        · exact le_of_lt (hlt s hs)
        · exact Nat.le_refl 100
      · intro s hs h1 h2
        simp only [List.mem_cons, List.mem_append, List.not_mem_nil, or_false] at hs
        rcases hs with rfl | rfl | rfl | hs | rfl
        · exact Nat.zero_lt_succ 99
        · exact Nat.zero_lt_succ 99
        · exact Nat.zero_lt_succ 99
        · exact hlt s hs
        · exact absurd rfl h1
  · rw [pv_open_fail video_id src params (by simpa using hop)]
    refine ⟨?_, ?_, ?_, Or.inr rfl, rfl⟩
    · simp [List.chain'_cons, initTask]
    · intro s hs
      simp only [List.mem_cons, List.not_mem_nil, or_false] at hs
      rcases hs with rfl | rfl | rfl | rfl <;> simp [initTask]
    · intro s hs h1 h2
      simp only [List.mem_cons, List.not_mem_nil, or_false] at hs
      rcases hs with rfl | rfl | rfl
      · exact Nat.zero_lt_succ 99
      · exact absurd rfl h2
      · exact absurd rfl h2

/-- C1 witness: the amended theorem applied at the accurate two frame
    source. -/
theorem c1_progress_amended_witness :
    srcTwo.frames.length ≤ srcTwo.total_frames ∧
    (process_video vidA srcTwo paramsA (initTask vidA)).final.progress = 100 :=
  ⟨by decide, (c1_progress_amended vidA srcTwo paramsA (by decide)).2.2.2.2⟩

/-- C6: across every run the status only takes forward steps
    pending to processing to completed or error, with no regression and no
    step out of a terminal status; error_message is non-null exactly on
    the snapshots whose status is error, it changes only from none to some
    on the single step into error, and a job that completes keeps
    error_message null over its whole lifetime. -/
theorem c6_status_machine (video_id : String) (src : FrameSource) (params : Params) :
    List.Chain' taskStep
      (initTask video_id :: (process_video video_id src params (initTask video_id)).trace) ∧
    (∀ s ∈ initTask video_id :: (process_video video_id src params (initTask video_id)).trace,
        (s.error_message ≠ none ↔ s.status = Status.error)) ∧
    ((process_video video_id src params (initTask video_id)).final.status = Status.completed →
      ∀ s ∈ initTask video_id :: (process_video video_id src params (initTask video_id)).trace,
        s.error_message = none) := by
  by_cases hop : src.opened
  · by_cases h0 : src.total_frames = 0
    · cases hf : src.frames with
      | nil =>
        rw [pv_zero_frames video_id src params hop h0 hf]
        refine ⟨?_, ?_, ?_⟩
        · simp [List.chain'_cons, taskStep, statusStep, initTask, startTask]
        · intro s hs
          simp only [List.mem_cons, List.not_mem_nil, or_false] at hs
          rcases hs with rfl | rfl | rfl | rfl | rfl <;> simp [initTask, startTask]
        · intro _ s hs
          simp only [List.mem_cons, List.not_mem_nil, or_false] at hs
          rcases hs with rfl | rfl | rfl | rfl | rfl <;> rfl
      | cons f rest =>
        rw [pv_zero_div video_id src params f rest hop h0 hf]
        refine ⟨?_, ?_, ?_⟩
        · simp [List.chain'_cons, taskStep, statusStep, initTask, startTask]
        · intro s hs
          simp only [List.mem_cons, List.not_mem_nil, or_false] at hs
          rcases hs with rfl | rfl | rfl | rfl | rfl | rfl <;> simp [initTask, startTask]
        · intro habs
          exact absurd habs (by simp)
    · obtain ⟨t4, ht4, heq⟩ := pv_success video_id src params hop h0
      have hres := runLoop_result_fields params (frameSkip src.fps params.interval)
        src.total_frames src.frames 0 0 (startTask video_id src.total_frames)
      rw [ht4] at hres
      simp only [resTask] at hres
      have hfields := runLoop_trace_fields params (frameSkip src.fps params.interval)
        src.total_frames src.frames 0 0 (startTask video_id src.total_frames)
      rw [heq]
      dsimp only
      refine ⟨?_, ?_, ?_⟩
      · refine List.chain'_cons.mpr ⟨?_, ?_⟩
        · exact ⟨Or.inr (Or.inl ⟨rfl, rfl⟩), Or.inl rfl⟩
        refine List.chain'_cons.mpr ⟨⟨Or.inl rfl, Or.inl rfl⟩, ?_⟩
        refine List.chain'_cons.mpr ⟨⟨Or.inl rfl, Or.inl rfl⟩, ?_⟩
        rw [← List.cons_append]
        refine chain'_snoc _ _ ?_ ?_
        · refine chain'_of_forall_pairs _ ?_
          intro a ha b hb
          have hfa : a.status = Status.processing ∧ a.error_message = none := by
            simp only [List.mem_cons] at ha
            rcases ha with rfl | ha
            · exact ⟨rfl, rfl⟩
            · exact ⟨(hfields a ha).1, (hfields a ha).2.1⟩
          have hfb : b.status = Status.processing ∧ b.error_message = none := by
            simp only [List.mem_cons] at hb
            rcases hb with rfl | hb
            · exact ⟨rfl, rfl⟩
            · exact ⟨(hfields b hb).1, (hfields b hb).2.1⟩
          exact ⟨Or.inl (hfa.1.trans hfb.1.symm), Or.inl (hfa.2.trans hfb.2.symm)⟩
        · intro y hy
          have hfy : y.status = Status.processing ∧ y.error_message = none := by
            simp only [List.mem_cons] at hy
            rcases hy with rfl | hy
            · exact ⟨rfl, rfl⟩
            · exact ⟨(hfields y hy).1, (hfields y hy).2.1⟩
          refine ⟨Or.inr (Or.inr ⟨hfy.1, Or.inl rfl⟩), Or.inl ?_⟩
          rw [hfy.2]
          exact hres.2.1.symm
      · intro s hs
        simp only [List.mem_cons, List.mem_append, List.not_mem_nil, or_false] at hs
        rcases hs with rfl | rfl | rfl | rfl | hs | rfl
        · simp [initTask]
        · simp [startTask]
        · simp [startTask]
        · simp [startTask]
        · have := hfields s hs
          rw [this.1, this.2.1]
          simp [startTask]
        · constructor
          · intro hne
            exact absurd hres.2.1 hne
          · intro habs
            exact absurd habs (by simp)
      · intro _ s hs
        simp only [List.mem_cons, List.mem_append, List.not_mem_nil, or_false] at hs
        rcases hs with rfl | rfl | rfl | rfl | hs | rfl
        · rfl
        · rfl
        · rfl
        · rfl
        · exact (hfields s hs).2.1
        · exact hres.2.1
  · rw [pv_open_fail video_id src params (by simpa using hop)]
    refine ⟨?_, ?_, ?_⟩
    · simp [List.chain'_cons, taskStep, statusStep, initTask]
    · intro s hs
      simp only [List.mem_cons, List.not_mem_nil, or_false] at hs
      rcases hs with rfl | rfl | rfl | rfl <;> simp [initTask]
    · intro habs
      exact absurd habs (by simp)

end TVTF
